import Mathlib

/-!
Verification development for the business-rules2 rule engine
(src/business_rules2: engine.py, operators.py, parser.py).

The Python sources are shallowly embedded below:
- Python values flowing through the engine become the inductive type PyVal;
- decimal.Decimal becomes PyDecimal, the coefficient-exponent pair Decimal
  itself uses; construction and comparison are exact, while subtraction
  and absolute value round to the default decimal context (28 significant
  digits, ROUND_HALF_EVEN), as the decimal module does;
- the operator classes of operators.py become functions on these values;
- the evaluator of engine.py becomes an Except-valued recursive function;
- the pyparsing grammar of parser.py becomes a fuel-indexed recursive
  descent parser over the same token structure, and the line scanner
  RuleParser.parsestr becomes a character-level function.
-/

/-- decimal.Decimal from operators.py, represented as Decimal itself is: a
signed integer coefficient and an integer exponent, denoting
man * 10 ^ exp. Construction from ints and from floats (via the lossless
utils.float_to_decimal) is exact and does not round. -/
structure PyDecimal where
  man : Int
  exp : Int
deriving DecidableEq, Repr

namespace PyDecimal

/-- The rational value denoted by a PyDecimal. -/
def toRat (d : PyDecimal) : ℚ := (d.man : ℚ) * 10 ^ d.exp

/-- Number of base-10 digits of a coefficient (fuel-indexed so that it
reduces definitionally; the fuel n always covers the digit count). -/
def digitCountAux : Nat → Nat → Nat
  | 0, _ => 1
  | Nat.succ f, n => if n < 10 then 1 else 1 + digitCountAux f (n / 10)

/-- Number of base-10 digits of a coefficient. -/
def digitCount (n : Nat) : Nat := digitCountAux n n

/-- The default decimal context precision (decimal.getcontext().prec). -/
def contextPrec : Nat := 28

/-- Context rounding of decimal._fix with the default context: a result
whose coefficient exceeds 28 significant digits is rounded to 28 digits
with ROUND_HALF_EVEN (ties to the even coefficient), carrying into the
exponent when rounding overflows to a 29th digit. Results already within
28 digits are returned unchanged (the context's exponent limits Emin/Emax
are astronomically far from the engine's values and are not modelled). -/
def fix (d : PyDecimal) : PyDecimal :=
  let dg := digitCount d.man.natAbs
  if d.man = 0 then d
  else if dg ≤ contextPrec then d
  else
    let k := dg - contextPrec
    let pk : Nat := 10 ^ k
    let q := d.man.natAbs / pk
    let r := d.man.natAbs % pk
    let half : Nat := 5 * 10 ^ (k - 1)
    let q2 : Nat :=
      if half < r then q + 1
      else if r < half then q
      else if q % 2 = 0 then q else q + 1
    if q2 = 10 ^ contextPrec then
      ⟨if d.man < 0 then -(10 ^ 27 : Int) else (10 ^ 27 : Int), d.exp + k + 1⟩
    else
      ⟨if d.man < 0 then -(q2 : Int) else (q2 : Int), d.exp + k⟩

/-- The exact difference before rounding: Decimal subtraction aligns both
coefficients to the smaller exponent. -/
def esub (a b : PyDecimal) : PyDecimal :=
  ⟨a.man * 10 ^ (a.exp - min a.exp b.exp).toNat -
     b.man * 10 ^ (b.exp - min a.exp b.exp).toNat,
   min a.exp b.exp⟩

/-- Decimal subtraction: the exact difference rounded by the context
(exact result then round, per the General Decimal Arithmetic
Specification the decimal module implements). -/
def sub (a b : PyDecimal) : PyDecimal := fix (esub a b)

/-- Decimal abs: copy_abs followed by the context rounding (Decimal
__abs__ rounds like unary plus). -/
def dabs (a : PyDecimal) : PyDecimal := fix ⟨|a.man|, a.exp⟩

/-- Exact Decimal comparison a <= b (comparisons do not round). -/
def dle (a b : PyDecimal) : Bool :=
  decide (a.man * 10 ^ (a.exp - min a.exp b.exp).toNat ≤
    b.man * 10 ^ (b.exp - min a.exp b.exp).toNat)

/-- Exact Decimal comparison a < b. -/
def dlt (a b : PyDecimal) : Bool :=
  decide (a.man * 10 ^ (a.exp - min a.exp b.exp).toNat <
    b.man * 10 ^ (b.exp - min a.exp b.exp).toNat)

/-- Exact Decimal equality (equality of denoted values). -/
def deq (a b : PyDecimal) : Bool :=
  decide (a.man * 10 ^ (a.exp - min a.exp b.exp).toNat =
    b.man * 10 ^ (b.exp - min a.exp b.exp).toNat)

end PyDecimal

/-- A Python value as it flows through the rule engine: numbers
(int / float / Decimal, all of which the engine converts to Decimal,
modelled exactly as PyDecimal), strings, booleans, lists, and None. -/
inductive PyVal where
  | none
  | num (d : PyDecimal)
  | str (s : String)
  | bool (b : Bool)
  | list (l : List PyVal)

/-- Errors the engine can raise, one constructor per raise site in the
source (engine.py / operators.py / parser.py), named after the error
taxonomy of the specification where it names the site. -/
inductive EngineError where
  /-- operators.py _assert_valid_value_and_cast: the raw value does not fit
  the value kind (AssertionError in the source). -/
  | invalidValue (kind : String)
  /-- engine.py _get_variable_value fallback: field name not exposed by the
  variables provider (AssertionError in the source). -/
  | unknownVariable (name : String)
  /-- engine.py _do_operator_comparison fallback: operator name not defined
  on the resolved value kind (AssertionError in the source). -/
  | unknownOperator (name : String)
  /-- engine.py do_actions fallback: action name not exposed by the actions
  provider (AssertionError in the source). -/
  | unknownAction (name : String)
  /-- engine.py check_conditions_recursively: assert len(children) >= 1 on
  an all/any group (AssertionError in the source). -/
  | invalidRuleShape
  /-- engine.py check_conditions_recursively calls conditions.keys() on an
  object that is not a dict (AttributeError in the source): this happens to
  every raw parse result stored by RuleParser.parsestr. -/
  | attributeErrorNoKeys
  /-- engine.py run: raise ValueError() when the rule argument did not
  produce exactly one parsed rule. -/
  | valueErrorRun
  /-- parser.py ComparisonExpr._parse_value: int(...) or float(...) raised
  ValueError on a malformed literal. -/
  | valueErrorLiteral
  /-- pyparsing parseString: no parse at position 0 (ParseException). -/
  | parseException
  /-- parser.py RuleParser.parsestr: condition or action line appended for
  a rule name that was never opened (KeyError in the source). -/
  | keyErrorRules
  /-- parser.py RuleParser.parsestr: line.split(...)[1] with no second
  element (IndexError in the source). -/
  | indexErrorToken
  /-- parser.py RuleParser.parse_actions: unpacking rsplit into two names
  failed, or an argument had no equals sign (ValueError / IndexError). -/
  | valueErrorUnpack
  /-- shlex.split: unmatched quote (ValueError in the source). -/
  | shlexError
  /-- StringType.matches_regex delegates to Python re.search, which is not
  modelled here; no claim depends on it. -/
  | regexNotModelled
deriving DecidableEq, Repr

/-- ASCII lower-casing of one character (Python str.lower on the ASCII
range, the only range the rule grammar produces). -/
def lowerChar (c : Char) : Char :=
  if 65 ≤ c.toNat ∧ c.toNat ≤ 90 then Char.ofNat (c.toNat + 32) else c

/-- Python str.lower, ASCII range. -/
def lowerStr (s : String) : String := ⟨s.data.map lowerChar⟩

/-- Python truthiness (bool(x)) for the values the engine handles:
None, zero, empty string, False and empty list are falsy. -/
def pyTruthy : PyVal → Bool
  | .none => false
  | .num d => !(d.man == 0)
  | .str s => !(s == "")
  | .bool b => b
  | .list l => !l.isEmpty

mutual
/-- Python == on engine values: numbers compare by value (Decimal/int/float
interoperate), booleans equal the numbers 0/1 as in Python, strings and
lists compare structurally, cross-kind comparisons are False. -/
def pyEq : PyVal → PyVal → Bool
  | .none, .none => true
  | .num a, .num b => a.deq b
  | .str a, .str b => a == b
  | .bool a, .bool b => a == b
  | .bool a, .num b => PyDecimal.deq ⟨if a then 1 else 0, 0⟩ b
  | .num a, .bool b => PyDecimal.deq a ⟨if b then 1 else 0, 0⟩
  | .list a, .list b => pyEqList a b
  | _, _ => false

/-- Python == on lists, elementwise. -/
def pyEqList : List PyVal → List PyVal → Bool
  | [], [] => true
  | a :: as', b :: bs' => pyEq a b && pyEqList as' bs'
  | _, _ => false
end

/-- Python x.startswith(p). -/
def strStartsWith (s p : String) : Bool := p.data.isPrefixOf s.data

/-- Python x.endswith(p). -/
def strEndsWith (s p : String) : Bool := p.data.isSuffixOf s.data

/-- Is pat a contiguous infix of s (Python substring membership). -/
def listIsInfix (pat : List Char) : List Char → Bool
  | [] => pat.isEmpty
  | c :: rest => pat.isPrefixOf (c :: rest) || listIsInfix pat rest

/-- Python sub in s (substring containment). -/
def strContainsSub (s sub' : String) : Bool := listIsInfix sub'.data s.data

/-- StringType._assert_valid_value_and_cast: value = value or "" (any falsy
input becomes the empty string), then the result must be a str, otherwise
AssertionError. -/
def StringType.cast (v : PyVal) : Except EngineError String :=
  let v2 := if pyTruthy v then v else .str ""
  match v2 with
  | .str s => .ok s
  | _ => .error (.invalidValue "string")

/-- StringType.equal_to. -/
def StringType.equal_to (s o : String) : Bool := s == o

/-- StringType.equal_to_case_insensitive. -/
def StringType.equal_to_case_insensitive (s o : String) : Bool :=
  lowerStr s == lowerStr o

/-- StringType.starts_with. -/
def StringType.starts_with (s o : String) : Bool := strStartsWith s o

/-- StringType.ends_with. -/
def StringType.ends_with (s o : String) : Bool := strEndsWith s o

/-- StringType.contains: other_string in self.value. -/
def StringType.contains (s o : String) : Bool := strContainsSub s o

/-- StringType.non_empty: bool(self.value), an operator with no comparison
input. -/
def StringType.non_empty (s : String) : Bool := !(s == "")

/-- NumericType.EPSILON = Decimal('0.000001'). -/
def NumericType.EPSILON : PyDecimal := ⟨1, -6⟩

/-- NumericType._assert_valid_value_and_cast: floats and ints convert
exactly to Decimal (utils.float_to_decimal is lossless), Decimals pass
through, anything else is an AssertionError. Python bools are instances of
int, so they convert to Decimal 0/1. -/
def NumericType.cast (v : PyVal) : Except EngineError PyDecimal :=
  match v with
  | .num d => .ok d
  | .bool b => .ok ⟨if b then 1 else 0, 0⟩
  | _ => .error (.invalidValue "numeric")

/-- NumericType.equal_to: abs(self.value - other) <= EPSILON. -/
def NumericType.equal_to (a b : PyDecimal) : Bool :=
  ((a.sub b).dabs).dle NumericType.EPSILON

/-- NumericType.greater_than: (self.value - other) > EPSILON. -/
def NumericType.greater_than (a b : PyDecimal) : Bool :=
  NumericType.EPSILON.dlt (a.sub b)

/-- NumericType.greater_than_or_equal_to: greater_than or equal_to. -/
def NumericType.greater_than_or_equal_to (a b : PyDecimal) : Bool :=
  NumericType.greater_than a b || NumericType.equal_to a b

/-- NumericType.less_than: (other - self.value) > EPSILON. -/
def NumericType.less_than (a b : PyDecimal) : Bool :=
  NumericType.EPSILON.dlt (b.sub a)

/-- NumericType.less_than_or_equal_to: less_than or equal_to (registered
under the token >= in the source, see the metadata table below). -/
def NumericType.less_than_or_equal_to (a b : PyDecimal) : Bool :=
  NumericType.less_than a b || NumericType.equal_to a b

/-- BooleanType._assert_valid_value_and_cast: type(value) != bool raises
(exact type check: even Python ints are rejected). -/
def BooleanType.cast (v : PyVal) : Except EngineError Bool :=
  match v with
  | .bool b => .ok b
  | _ => .error (.invalidValue "boolean")

/-- Python hasattr(value, "__iter__"): lists iterate to their elements and
strings iterate to their one-character substrings; every other engine value
is not iterable. -/
def toIterList : PyVal → Option (List PyVal)
  | .list l => some l
  | .str s => some (s.data.map fun c => PyVal.str ⟨[c]⟩)
  | _ => Option.none

/-- SelectType._assert_valid_value_and_cast: value must be iterable. -/
def SelectType.cast (v : PyVal) : Except EngineError (List PyVal) :=
  match toIterList v with
  | some l => .ok l
  | Option.none => .error (.invalidValue "select")

/-- SelectType._case_insensitive_equal_to: lower-cased comparison when both
sides are strings, Python == otherwise. -/
def caseInsensitiveEqualTo (vl ov : PyVal) : Bool :=
  match vl, ov with
  | .str a, .str b => lowerStr a == lowerStr b
  | _, _ => pyEq vl ov

/-- SelectType.contains: some element of the container equals other_value
(case-insensitively for strings). -/
def SelectType.contains (container : List PyVal) (other : PyVal) : Bool :=
  match container with
  | [] => false
  | v :: rest =>
    if caseInsensitiveEqualTo v other then true else SelectType.contains rest other

/-- SelectType.does_not_contain: returns False on the first match, True
when no element matches. -/
def SelectType.does_not_contain (container : List PyVal) (other : PyVal) : Bool :=
  match container with
  | [] => true
  | v :: rest =>
    if caseInsensitiveEqualTo v other then false
    else SelectType.does_not_contain rest other

/-- SelectMultipleType._assert_valid_value_and_cast: value must be
iterable. -/
def SelectMultipleType.cast (v : PyVal) : Except EngineError (List PyVal) :=
  match toIterList v with
  | some l => .ok l
  | Option.none => .error (.invalidValue "select multiple")

/-- SelectMultipleType.contains_all: every element of other_value is
contained (SelectType.contains) in the field value. -/
def SelectMultipleType.contains_all (value other : List PyVal) : Bool :=
  match other with
  | [] => true
  | o :: rest =>
    if SelectType.contains value o then SelectMultipleType.contains_all value rest
    else false

/-- SelectMultipleType.is_contained_by: builds a SelectMultipleType around
other_value and asks it contains_all of the field value. -/
def SelectMultipleType.is_contained_by (value other : List PyVal) : Bool :=
  SelectMultipleType.contains_all other value

/-- SelectMultipleType.shares_at_least_one_element_with. -/
def SelectMultipleType.shares_at_least_one_element_with (value other : List PyVal) : Bool :=
  match other with
  | [] => false
  | o :: rest =>
    if SelectType.contains value o then true
    else SelectMultipleType.shares_at_least_one_element_with value rest

/-- Loop body of SelectMultipleType.shares_exactly_one_element_with, with
the found_one flag explicit. -/
def SelectMultipleType.sharesExactlyOneAux (value : List PyVal) (found : Bool) :
    List PyVal → Bool
  | [] => found
  | o :: rest =>
    if SelectType.contains value o then
      if found then false else SelectMultipleType.sharesExactlyOneAux value true rest
    else SelectMultipleType.sharesExactlyOneAux value found rest

/-- SelectMultipleType.shares_exactly_one_element_with: scans other_value,
fails as soon as a second element is found in the field value. -/
def SelectMultipleType.shares_exactly_one_element_with (value other : List PyVal) : Bool :=
  SelectMultipleType.sharesExactlyOneAux value false other

/-- SelectMultipleType.shares_no_elements_with. -/
def SelectMultipleType.shares_no_elements_with (value other : List PyVal) : Bool :=
  !(SelectMultipleType.shares_at_least_one_element_with value other)

/-- The input-shape constants of fields.py (file not part of src; the
constants are opaque tags, modelled as an enumeration per the
specification). -/
inductive InputFieldType where
  | text
  | numeric
  | noInput
  | select
  | selectMultiple
deriving DecidableEq, Repr

/-- One entry of BaseType.get_all_operators: the metadata the
type_operator decorator attaches to an operator method (the label field,
computed by utils.fn_name_to_pretty_label from the missing utils.py, is
omitted; no claim depends on it). -/
structure OperatorMeta where
  name : String
  operator : String
  inputType : InputFieldType
  validValue : Option PyVal

/-- BaseType.get_all_operators for NumericType: inspect.getmembers
enumerates the decorated methods in alphabetical order with the metadata
from their type_operator decorators in operators.py lines 137-155. -/
def NumericType.get_all_operators : List OperatorMeta :=
  [⟨"equal_to", "=", .numeric, Option.none⟩,
   ⟨"greater_than", ">", .numeric, Option.none⟩,
   ⟨"greater_than_or_equal_to", ">=", .numeric, Option.none⟩,
   ⟨"less_than", "<", .numeric, Option.none⟩,
   ⟨"less_than_or_equal_to", ">=", .numeric, Option.none⟩]

/-- The value kind a variables-provider accessor is tagged with (the
field_type class the variable decorators of variables.py attach; the
decorators themselves are not under src, but engine.py line 113 reads the
tag and applies the corresponding class constructor from operators.py). -/
inductive FieldKind where
  | string
  | numeric
  | boolean
  | select
  | selectMultiple
deriving DecidableEq, Repr

/-- An instance of a BaseType subclass of operators.py: the validated
payload the engine dispatches operators on. -/
inductive TypedValue where
  | stringV (s : String)
  | numericV (d : PyDecimal)
  | booleanV (b : Bool)
  | selectV (l : List PyVal)
  | selectMultipleV (l : List PyVal)

/-- method.field_type(val) from engine.py line 113: construct the
BaseType subclass instance for the tagged kind, running that class's
_assert_valid_value_and_cast. -/
def castValue (k : FieldKind) (v : PyVal) : Except EngineError TypedValue :=
  match k with
  | .string => (StringType.cast v).map .stringV
  | .numeric => (NumericType.cast v).map .numericV
  | .boolean => (BooleanType.cast v).map .booleanV
  | .select => (SelectType.cast v).map .selectV
  | .selectMultiple => (SelectMultipleType.cast v).map .selectMultipleV

/-- A variables provider (external collaborator, engine.py lines 98-113):
a mapping from field name to the accessor's declared kind and the raw
value the zero-argument accessor returns. A name the provider does not
expose maps to none. -/
def Variables : Type := String → Option (FieldKind × PyVal)

/-- An actions provider (external collaborator, engine.py lines 133-146):
which action names it exposes. Invocations are recorded as a log by the
evaluator below; their side effects are outside the model. -/
def Actions : Type := String → Bool

/-- engine.py _get_variable_value: look the name up on the provider
(fallback raises AssertionError "Variable ... is not defined"), call the
accessor, cast its value to the tagged kind. -/
def getVariableValue (dv : Variables) (name : String) : Except EngineError TypedValue :=
  match dv name with
  | Option.none => .error (.unknownVariable name)
  | some (k, raw) => castValue k raw

/-- engine.py _do_operator_comparison: find the operator method on the
typed value (fallback raises AssertionError "Operator ... does not
exist"), call it with no argument when its input type is FIELD_NO_INPUT
and with the comparison value otherwise. The type_operator decorator casts
the comparison argument with the same class's
_assert_valid_value_and_cast, except for SelectType.contains and
SelectType.does_not_contain which set assert_type_for_arguments=False. -/
def doOperatorComparison (tv : TypedValue) (opName : String) (cmp : PyVal) :
    Except EngineError Bool :=
  match tv with
  | .stringV s =>
    if opName = "equal_to" then (StringType.cast cmp).map (StringType.equal_to s)
    else if opName = "equal_to_case_insensitive" then
      (StringType.cast cmp).map (StringType.equal_to_case_insensitive s)
    else if opName = "starts_with" then (StringType.cast cmp).map (StringType.starts_with s)
    else if opName = "ends_with" then (StringType.cast cmp).map (StringType.ends_with s)
    else if opName = "contains" then (StringType.cast cmp).map (StringType.contains s)
    else if opName = "matches_regex" then .error .regexNotModelled
    else if opName = "non_empty" then .ok (StringType.non_empty s)
    else .error (.unknownOperator opName)
  | .numericV a =>
    if opName = "equal_to" then (NumericType.cast cmp).map (NumericType.equal_to a)
    else if opName = "greater_than" then (NumericType.cast cmp).map (NumericType.greater_than a)
    else if opName = "greater_than_or_equal_to" then
      (NumericType.cast cmp).map (NumericType.greater_than_or_equal_to a)
    else if opName = "less_than" then (NumericType.cast cmp).map (NumericType.less_than a)
    else if opName = "less_than_or_equal_to" then
      (NumericType.cast cmp).map (NumericType.less_than_or_equal_to a)
    else .error (.unknownOperator opName)
  | .booleanV b =>
    if opName = "is_true" then .ok b
    else if opName = "is_false" then .ok (!b)
    else .error (.unknownOperator opName)
  | .selectV l =>
    if opName = "contains" then .ok (SelectType.contains l cmp)
    else if opName = "does_not_contain" then .ok (SelectType.does_not_contain l cmp)
    else .error (.unknownOperator opName)
  | .selectMultipleV l =>
    if opName = "contains_all" then
      (SelectMultipleType.cast cmp).map (SelectMultipleType.contains_all l)
    else if opName = "is_contained_by" then
      (SelectMultipleType.cast cmp).map (SelectMultipleType.is_contained_by l)
    else if opName = "shares_at_least_one_element_with" then
      (SelectMultipleType.cast cmp).map (SelectMultipleType.shares_at_least_one_element_with l)
    else if opName = "shares_exactly_one_element_with" then
      (SelectMultipleType.cast cmp).map (SelectMultipleType.shares_exactly_one_element_with l)
    else if opName = "shares_no_elements_with" then
      (SelectMultipleType.cast cmp).map (SelectMultipleType.shares_no_elements_with l)
    else .error (.unknownOperator opName)

/-- engine.py check_condition: resolve the variable, dispatch the
operator on it with the condition's value. -/
def checkCondition (dv : Variables) (name opName : String) (value : PyVal) :
    Except EngineError Bool := do
  let tv ← getVariableValue dv name
  doOperatorComparison tv opName value

/-- parser.py LogicExpr: an AND/OR marker, normalized ('and' and '&'
become AND, 'or' and '|' become OR). -/
inductive LogicOp where
  | andOp
  | orOp
deriving DecidableEq, Repr

/-- parser.py ComparisonExpr after its parse action ran: the field token,
the raw operator token, and the value already put through _parse_value. -/
structure ComparisonExpr where
  field : String
  operator : String
  value : PyVal

/-- One node of the raw pyparsing result of ExpressionParser.parse, as
exposed by asList(): a ComparisonExpr object, a LogicExpr marker, or a
nested Python list (one per precedence level that saw an operator). -/
inductive PNode where
  | cmpE (c : ComparisonExpr)
  | logicE (op : LogicOp)
  | group (items : List PNode)

/-- The object stored under the conditions key of a rule, as the engine
receives it: a dict whose only key is all or any with a children list, a
leaf dict with name/operator/value keys, or a raw parser object (what
RuleParser.parsestr actually stores there: a ComparisonExpr or a nested
list, which has no keys() method). -/
inductive CondObj where
  | allD (cs : List CondObj)
  | anyD (cs : List CondObj)
  | leafD (name opName : String) (value : PyVal)
  | parsed (p : PNode)

mutual
/-- engine.py check_conditions_recursively: a dict with exactly the key
all asserts a non-empty children list then short-circuits to False on the
first false child; a dict with exactly the key any asserts non-emptiness
then short-circuits to True on the first true child; any other dict shape
falls to check_condition; a non-dict (raw parse object) raises
AttributeError at conditions.keys(). -/
def checkCondRec (dv : Variables) : CondObj → Except EngineError Bool
  | .allD cs =>
    if cs.isEmpty then .error .invalidRuleShape else checkAllList dv cs
  | .anyD cs =>
    if cs.isEmpty then .error .invalidRuleShape else checkAnyList dv cs
  | .leafD name opName value => checkCondition dv name opName value
  | .parsed _ => .error .attributeErrorNoKeys

/-- The all-loop of check_conditions_recursively: stop at the first child
evaluating false (or at the first raised error). -/
def checkAllList (dv : Variables) : List CondObj → Except EngineError Bool
  | [] => .ok true
  | c :: rest =>
    match checkCondRec dv c with
    | .error e => .error e
    | .ok false => .ok false
    | .ok true => checkAllList dv rest

/-- The any-loop of check_conditions_recursively: stop at the first child
evaluating true (or at the first raised error). -/
def checkAnyList (dv : Variables) : List CondObj → Except EngineError Bool
  | [] => .ok false
  | c :: rest =>
    match checkCondRec dv c with
    | .error e => .error e
    | .ok true => .ok true
    | .ok false => checkAnyList dv rest
end

/-- One action call of a parsed rule: engine.py do_actions reads the name
and params keys. -/
structure ActionCall where
  name : String
  params : List (String × String)

/-- A record of one performed action invocation (the observable effect of
method(**params) in do_actions). -/
def Invocation : Type := String × List (String × String)

/-- engine.py do_actions: invoke each action in order; an unknown action
name raises AssertionError, keeping the invocations made so far (their
side effects have already happened). Returns the invocation log and the
error, if one was raised. -/
def doActions (da : Actions) : List ActionCall → List Invocation × Option EngineError
  | [] => ([], Option.none)
  | a :: rest =>
    if da a.name then
      let (log, err) := doActions da rest
      ((a.name, a.params) :: log, err)
    else ([], some (.unknownAction a.name))

/-- A parsed rule as engine.py run consumes it: the dict with name,
conditions and actions keys. -/
structure Rule where
  name : String
  conditions : CondObj
  actions : List ActionCall

/-- engine.py run on an already-parsed rule dict: evaluate the condition
tree; on True perform the actions and return True, otherwise perform
nothing and return False. The returned log lists the performed action
invocations (empty whenever the conditions failed or raised). -/
def run (rule : Rule) (dv : Variables) (da : Actions) :
    Except EngineError Bool × List Invocation :=
  match checkCondRec dv rule.conditions with
  | .error e => (.error e, [])
  | .ok true =>
    match doActions da rule.actions with
    | (log, Option.none) => (.ok true, log)
    | (log, some e) => (.error e, log)
  | .ok false => (.ok false, [])

/-- A token of the condition-expression grammar as pyparsing consumes it:
a parsed comparison (the base expression of the infix grammar), an AND or
OR operator token, or a parenthesis (the infix helper accepts
parenthesized sub-expressions). -/
inductive ExprTok where
  | cmp (c : ComparisonExpr)
  | andT
  | orT
  | lpar
  | rpar

mutual
/-- The base expression of the infix grammar built in
ExpressionParser._create_parser: a comparison, or a parenthesized
sub-expression. Fuel-indexed; the fuel passed by the entry points below
always suffices. -/
def parseAtomT : Nat → List ExprTok → Option (PNode × List ExprTok)
  | _, .cmp c :: rest => some (.cmpE c, rest)
  | Nat.succ f, .lpar :: rest =>
    match parseOrT f rest with
    | some (n, .rpar :: r2) => some (n, r2)
    | _ => Option.none
  | _, _ => Option.none

/-- The (AND atom)* repetition of the tighter infix level: greedy, and a
trailing operator with no following atom is left unconsumed. -/
def parseAndChainT : Nat → List PNode → List ExprTok → List PNode × List ExprTok
  | Nat.succ f, acc, .andT :: rest =>
    match parseAtomT f rest with
    | some (n, r2) => parseAndChainT f (acc ++ [.logicE .andOp, n]) r2
    | Option.none => (acc, .andT :: rest)
  | _, acc, toks => (acc, toks)

/-- The AND precedence level: one flat Group when at least one AND was
consumed, the bare atom otherwise (pyparsing wraps each left-associative
level that fired in a single flat Group). -/
def parseAndT : Nat → List ExprTok → Option (PNode × List ExprTok)
  | Nat.succ f, toks =>
    match parseAtomT f toks with
    | some (n, r) =>
      let (items, r2) := parseAndChainT f [n] r
      some (if items.length == 1 then n else .group items, r2)
    | Option.none => Option.none
  | 0, _ => Option.none

/-- The (OR andLevel)* repetition of the looser infix level. -/
def parseOrChainT : Nat → List PNode → List ExprTok → List PNode × List ExprTok
  | Nat.succ f, acc, .orT :: rest =>
    match parseAndT f rest with
    | some (n, r2) => parseOrChainT f (acc ++ [.logicE .orOp, n]) r2
    | Option.none => (acc, .orT :: rest)
  | _, acc, toks => (acc, toks)

/-- The OR precedence level, the whole expression grammar: pyparsing
infixNotation with the operator table [(AND, 2, LEFT), (OR, 2, LEFT)]
parses AND at a tighter level than OR, each level left-associative. -/
def parseOrT : Nat → List ExprTok → Option (PNode × List ExprTok)
  | Nat.succ f, toks =>
    match parseAndT f toks with
    | some (n, r) =>
      let (items, r2) := parseOrChainT f [n] r
      some (if items.length == 1 then n else .group items, r2)
    | Option.none => Option.none
  | 0, _ => Option.none
end

/-- The parse of a token sequence by the expression grammar, as returned
by parseString(...).asList()[0]: the first (and only) top-level result;
trailing unconsumed tokens are ignored by parseString. -/
def parseExprToks (toks : List ExprTok) : Option PNode :=
  match parseOrT (3 * toks.length + 3) toks with
  | some (n, _) => some n
  | Option.none => Option.none

/-- The single-quote character (written by code point to keep the source
free of quote literals). -/
def quoteChar : Char := Char.ofNat 39

/-- The double-quote character. -/
def dquoteChar : Char := Char.ofNat 34

/-- pyparsing default skippable whitespace (space, tab, newline). -/
def isParseWs (c : Char) : Bool := c == ' ' || c == '\t' || c == '\n'

/-- Skip pyparsing whitespace. -/
def skipWs (s : List Char) : List Char := s.dropWhile isParseWs

/-- Characters of Word(alphanums + underscore), the FIELD token. -/
def isIdentChar (c : Char) : Bool := c.isAlphanum || c == '_'

/-- Greedy span of a character class (pyparsing Word). -/
def spanP (p : Char → Bool) (s : List Char) : List Char × List Char :=
  (s.takeWhile p, s.dropWhile p)

/-- The operator tokens of ComparisonExpr.OPERATORS, ordered so that a
longer token is tried before any of its prefixes, as pyparsing oneOf
arranges them (longest match wins). -/
def operatorTokens : List String :=
  ["not containedby", "exactly one in", "containedby", "startswith",
   "endswith", "matches", "not in", "all in", "one in",
   ">=", "<=", "in", "is", "=", ">", "<"]

/-- Match the first token of the list that is a literal prefix of the
input (pyparsing oneOf / MatchFirst of literals). -/
def tryTokens : List String → List Char → Option (String × List Char)
  | [], _ => Option.none
  | t :: ts, s =>
    if t.data.isPrefixOf s then some (t, s.drop t.data.length)
    else tryTokens ts s

/-- Take characters up to (excluding) the first occurrence of the closing
character; none when it never occurs (an unterminated quoted string fails
to parse). -/
def takeUntilChar (close : Char) : List Char → Option (List Char × List Char)
  | [] => Option.none
  | c :: rest =>
    if c == close then some ([], rest)
    else match takeUntilChar close rest with
      | some (content, r2) => some (c :: content, r2)
      | Option.none => Option.none

/-- Keyword boundary characters of pyparsing CaselessKeyword (default
identChars: alphanumerics, underscore and dollar). -/
def isKeywordChar (c : Char) : Bool := c.isAlphanum || c == '_' || c == '$'

/-- CaselessKeyword(kw): case-insensitive literal match that must not be
followed by an identifier character; yields the canonical match string. -/
def caselessKeyword (kw : String) (s : List Char) : Option (String × List Char) :=
  let pre := s.take kw.data.length
  if (pre.map lowerChar) == kw.data then
    let rest := s.drop kw.data.length
    match rest with
    | [] => some (kw, [])
    | c :: _ => if isKeywordChar c then Option.none else some (kw, rest)
  else Option.none

/-- The VALUE alternation of ExpressionParser._create_parser, alternatives
tried in source order: a numeric word over digits, minus and dot; a
single-quoted string kept with its quotes; a bracketed list kept with its
brackets; the caseless keywords true, false, notblank. -/
def lexValueToken (s : List Char) : Option (String × List Char) :=
  let (numTok, restN) := spanP (fun c => c.isDigit || c == '-' || c == '.') s
  if !numTok.isEmpty then some (⟨numTok⟩, restN)
  else
    match s with
    | [] => Option.none
    | c :: rest =>
      if c == quoteChar then
        match takeUntilChar quoteChar rest with
        | some (content, r2) => some (⟨quoteChar :: content ++ [quoteChar]⟩, r2)
        | Option.none => Option.none
      else if c == '[' then
        match takeUntilChar ']' rest with
        | some (content, r2) => some (⟨'[' :: (content ++ [']'])⟩, r2)
        | Option.none => Option.none
      else
        match caselessKeyword "true" s with
        | some r => some r
        | Option.none =>
          match caselessKeyword "false" s with
          | some r => some r
          | Option.none => caselessKeyword "notblank" s

/-- Python int(token) for tokens of the numeric word: an optional minus
sign followed by at least one digit; anything else raises ValueError. -/
def strToIntDec (s : List Char) : Except EngineError PyDecimal :=
  match s with
  | '-' :: ds =>
    match digitsToNat ds with
    | some n => .ok ⟨-(n : Int), 0⟩
    | Option.none => .error .valueErrorLiteral
  | ds =>
    match digitsToNat ds with
    | some n => .ok ⟨(n : Int), 0⟩
    | Option.none => .error .valueErrorLiteral
where
  /-- All-digit nonempty run to its value. -/
  digitsToNat : List Char → Option Nat
  | [] => Option.none
  | ds => go ds 0
  /-- Accumulator loop. -/
  go : List Char → Nat → Option Nat
  | [], acc => some acc
  | c :: rest, acc =>
    if c.isDigit then go rest (acc * 10 + (c.toNat - 48)) else Option.none

/-- Python float(token) for tokens of the numeric word, read exactly as a
decimal: an optional minus sign, digits, an optional dot with more digits,
at least one digit overall. (CPython rounds the literal to a binary
double; no claim uses a fractional literal in rule text, so the exact
decimal reading is not observably different here.) -/
def strToFloatDec (s : List Char) : Except EngineError PyDecimal :=
  match s with
  | '-' :: ds => (parseBody ds).map fun d => ⟨-d.man, d.exp⟩
  | ds => parseBody ds
where
  /-- digits [ dot digits ] with at least one digit overall. -/
  parseBody : List Char → Except EngineError PyDecimal
  | ds =>
    let (ip, rest) := spanP Char.isDigit ds
    match rest with
    | [] =>
      if ip.isEmpty then .error .valueErrorLiteral
      else (strToIntDec ip).map fun d => ⟨d.man, 0⟩
    | '.' :: frac =>
      let (fp, rest2) := spanP Char.isDigit frac
      if !rest2.isEmpty then .error .valueErrorLiteral
      else if ip.isEmpty && fp.isEmpty then .error .valueErrorLiteral
      else
        match strToIntDec (ip ++ fp) with
        | .ok d => .ok ⟨d.man, fp.length⟩
        | .error e => .error e
    | _ => .error .valueErrorLiteral

/-- ComparisonExpr._parse_value: notblank and quoted tokens stay raw
strings (quotes kept), bracketed tokens stay raw strings, true/false in
any case become booleans, tokens with a dot parse as floats, everything
else as ints (int/float failures raise ValueError). -/
def parseValuePy (s : String) : Except EngineError PyVal :=
  if s == "notblank" || strStartsWith s ⟨[quoteChar]⟩ then .ok (.str s)
  else if strStartsWith s "[" then .ok (.str s)
  else if lowerStr s == "true" || lowerStr s == "false" then
    .ok (.bool (lowerStr s == "true"))
  else if s.data.contains '.' then (strToFloatDec s.data).map .num
  else (strToIntDec s.data).map .num

/-- The COMPARISON production FIELD + OPERATOR + VALUE with pyparsing
whitespace skipping, followed by the ComparisonExpr parse action. Returns
none when the production does not match (the grammar backtracks); an
exception from _parse_value propagates as an error. -/
def lexComparison (s : List Char) : Except EngineError (Option (ComparisonExpr × List Char)) :=
  let (fieldCs, r1) := spanP isIdentChar (skipWs s)
  if fieldCs.isEmpty then .ok Option.none
  else
    match tryTokens operatorTokens (skipWs r1) with
    | Option.none => .ok Option.none
    | some (opTok, r2) =>
      match lexValueToken (skipWs r2) with
      | Option.none => .ok Option.none
      | some (valTok, r3) =>
        match parseValuePy valTok with
        | .error e => .error e
        | .ok v => .ok (some (⟨⟨fieldCs⟩, opTok, v⟩, r3))

/-- The AND operator alternatives of LogicExpr. -/
def andTokens : List String := ["AND", "and", "&"]

/-- The OR operator alternatives of LogicExpr. -/
def orTokens : List String := ["OR", "or", "|"]

/-- Tokenization pass over condition text: in term position a comparison
(or an opening parenthesis) is expected, after a term an AND/OR operator
token (or a closing parenthesis); scanning stops at the first position
where nothing matches, leaving the rest for parseString to ignore.
pyparsing's interleaved backtracking over malformed inputs is not modelled
beyond this (no claim exercises it). Fuel-indexed; every step consumes at
least one character, so the callers' fuel always suffices. -/
def lexExpr : Nat → Bool → List Char → List ExprTok → Except EngineError (List ExprTok)
  | 0, _, _, acc => .ok acc
  | Nat.succ f, termPos, s, acc =>
    let s1 := skipWs s
    match s1 with
    | [] => .ok acc
    | c :: rest =>
      if termPos then
        match lexComparison s1 with
        | .error e => .error e
        | .ok (some (ce, r2)) => lexExpr f false r2 (acc ++ [.cmp ce])
        | .ok Option.none =>
          if c == '(' then lexExpr f true rest (acc ++ [.lpar]) else .ok acc
      else
        match tryTokens andTokens s1 with
        | some (_, r2) => lexExpr f true r2 (acc ++ [.andT])
        | Option.none =>
          match tryTokens orTokens s1 with
          | some (_, r2) => lexExpr f true r2 (acc ++ [.orT])
          | Option.none =>
            if c == ')' then lexExpr f false rest (acc ++ [.rpar]) else .ok acc

/-- ExpressionParser.parse: QUERY.parseString(text).asList()[0] — tokenize
and run the infix grammar; failure to parse any expression at all is a
ParseException. -/
def parseExpression (text : String) : Except EngineError PNode :=
  match lexExpr (text.data.length + 1) true text.data [] with
  | .error e => .error e
  | .ok toks =>
    match parseExprToks toks with
    | some n => .ok n
    | Option.none => .error .parseException

/-- Python str.split(newline): the line list, empty segments kept. -/
def splitOnNl (s : List Char) : List (List Char) :=
  go s []
where
  /-- Accumulates the current line reversed. -/
  go : List Char → List Char → List (List Char)
  | [], cur => [cur.reverse]
  | c :: rest, cur =>
    if c == '\n' then cur.reverse :: go rest [] else go rest (c :: cur)

/-- Python whitespace for str.strip (space, tab, newline, carriage return,
vertical tab, form feed). -/
def pyIsSpace (c : Char) : Bool :=
  c == ' ' || c == '\t' || c == '\n' || c == '\r' ||
  c == Char.ofNat 11 || c == Char.ofNat 12

/-- Drop a character class from both ends (Python str.strip). -/
def stripBy (p : Char → Bool) (l : List Char) : List Char :=
  ((l.dropWhile p).reverse.dropWhile p).reverse

/-- Python line.strip(). -/
def stripWsL (l : List Char) : List Char := stripBy pyIsSpace l

/-- Python s.strip(c) for a single strip character. -/
def stripCharL (c : Char) (l : List Char) : List Char := stripBy (· == c) l

/-- Python str.lower on a character list. -/
def toLowerL (l : List Char) : List Char := l.map lowerChar

/-- Python s.split(sep, 1): the part before the first occurrence and the
part after it; none when the separator does not occur (so that [1] would
raise IndexError). -/
def splitOnceChar (sep : Char) : List Char → Option (List Char × List Char)
  | [] => Option.none
  | c :: rest =>
    if c == sep then some ([], rest)
    else match splitOnceChar sep rest with
      | some (a, b) => some (c :: a, b)
      | Option.none => Option.none

/-- Python s.rsplit(sep, 1): split at the last occurrence. -/
def rsplitOnceChar (sep : Char) (l : List Char) : Option (List Char × List Char) :=
  match splitOnceChar sep l.reverse with
  | some (a, b) => some (b.reverse, a.reverse)
  | Option.none => Option.none

/-- Ordered-dict update: replace the value at an existing key in place,
append a new key at the end (Python dict insertion-order semantics). -/
def assocSet {α : Type} (k : String) (v : α) : List (String × α) → List (String × α)
  | [] => [(k, v)]
  | (k2, v2) :: rest =>
    if k2 == k then (k, v) :: rest else (k2, v2) :: assocSet k v rest

/-- Append one collected line to the named rule body entry; none when the
key is absent (Python KeyError). -/
def assocAppendLine (k : String) (toConditions : Bool) (line : List Char) :
    List (String × (List (List Char) × List (List Char))) →
    Option (List (String × (List (List Char) × List (List Char))))
  | [] => Option.none
  | (k2, (cs, as')) :: rest =>
    if k2 == k then
      if toConditions then some ((k2, (cs ++ [line], as')) :: rest)
      else some ((k2, (cs, as' ++ [line])) :: rest)
    else
      match assocAppendLine k toConditions line rest with
      | some r => some ((k2, (cs, as')) :: r)
      | Option.none => Option.none

/-- The mutable state of the line scan in RuleParser.parsestr: the ordered
rule dict being built (name to collected condition lines and action
lines), the current rule name, and the two collector flags. -/
structure ScanState where
  rules : List (String × (List (List Char) × List (List Char)))
  ruleName : Option String
  isCondition : Bool
  isAction : Bool

/-- One iteration of the line loop of RuleParser.parsestr. A line whose
lowered, stripped text starts with rule opens a new rule named by
everything after the first space of the raw line, with surrounding double
quotes stripped; when/then/end switch the collector flags and are
discarded; any other line is appended, stripped, to the active collector
(KeyError when no rule is open). The four keywords are pairwise
non-prefixes, so the source's sequence of non-exclusive if statements
behaves as this chain does. -/
def scanLine (st : ScanState) (line : List Char) : Except EngineError ScanState :=
  let low := toLowerL (stripWsL line)
  if "rule".data.isPrefixOf low then
    match splitOnceChar ' ' line with
    | Option.none => .error .indexErrorToken
    | some (_, rest) =>
      let rname : String := ⟨stripCharL dquoteChar rest⟩
      .ok ⟨assocSet rname ([], []) st.rules, some rname, false, false⟩
  else if "when".data.isPrefixOf low then
    .ok { st with isCondition := true, isAction := false }
  else if "then".data.isPrefixOf low then
    .ok { st with isCondition := false, isAction := true }
  else if "end".data.isPrefixOf low then
    .ok { st with isCondition := false, isAction := false }
  else if st.isCondition then
    match st.ruleName with
    | Option.none => .error .keyErrorRules
    | some n =>
      match assocAppendLine n true (stripWsL line) st.rules with
      | some r => .ok { st with rules := r }
      | Option.none => .error .keyErrorRules
  else if st.isAction then
    match st.ruleName with
    | Option.none => .error .keyErrorRules
    | some n =>
      match assocAppendLine n false (stripWsL line) st.rules with
      | some r => .ok { st with rules := r }
      | Option.none => .error .keyErrorRules
  else .ok st

/-- The full line loop. -/
def scanLines : ScanState → List (List Char) → Except EngineError ScanState
  | st, [] => .ok st
  | st, l :: rest =>
    match scanLine st l with
    | .error e => .error e
    | .ok st2 => scanLines st2 rest

/-- POSIX shlex.split as parse_actions uses it: whitespace-separated
tokens, single- or double-quoted substrings are not split and lose their
quotes, an unmatched quote raises ValueError. (Backslash escapes are not
modelled; the grammar's action lines do not produce them.) -/
def shlexSplit (s : List Char) : Except EngineError (List (List Char)) :=
  go s Option.none Option.none
where
  /-- State machine: remaining input, open quote character, current token
  (none between tokens). -/
  go : List Char → Option Char → Option (List Char) → Except EngineError (List (List Char))
  | [], some _, _ => .error .shlexError
  | [], Option.none, Option.none => .ok []
  | [], Option.none, some cur => .ok [cur]
  | c :: rest, some q, cur =>
    if c == q then go rest Option.none (some (cur.getD []))
    else go rest (some q) (some (cur.getD [] ++ [c]))
  | c :: rest, Option.none, cur =>
    if c == quoteChar || c == dquoteChar then go rest (some c) (some (cur.getD []))
    else if pyIsSpace c then
      match cur with
      | some t =>
        match go rest Option.none Option.none with
        | .ok ts => .ok (t :: ts)
        | .error e => .error e
      | Option.none => go rest Option.none Option.none
    else go rest Option.none (some (cur.getD [] ++ [c]))

/-- Argument list to params dict: each shlex token is stripped of commas
and whitespace and split once at the first equals sign (a token without
one raises IndexError); later duplicates of a key overwrite in place. -/
def argsToParams : List (List Char) → List (String × String) →
    Except EngineError (List (String × String))
  | [], acc => .ok acc
  | fa :: rest, acc =>
    let fa2 := stripWsL (stripCharL ',' fa)
    match splitOnceChar '=' fa2 with
    | Option.none => .error .valueErrorUnpack
    | some (k, v) => argsToParams rest (assocSet (⟨k⟩ : String) (⟨v⟩ : String) acc)

/-- RuleParser.parse_actions on one line: strip whitespace, strip closing
parentheses from both ends, split at the last opening parenthesis into
name and argument text (unpacking fails without one), then shlex-split
the arguments into params. -/
def parseActionLine (line : List Char) : Except EngineError ActionCall :=
  let l2 := stripCharL ')' (stripWsL line)
  match rsplitOnceChar '(' l2 with
  | Option.none => .error .valueErrorUnpack
  | some (fname, fargs) =>
    match shlexSplit fargs with
    | .error e => .error e
    | .ok toks =>
      match argsToParams toks [] with
      | .error e => .error e
      | .ok ps => .ok ⟨⟨fname⟩, ps⟩

/-- parse_actions over the collected action lines. -/
def parseActionLines : List (List Char) → Except EngineError (List ActionCall)
  | [] => .ok []
  | l :: rest =>
    match parseActionLine l with
    | .error e => .error e
    | .ok a =>
      match parseActionLines rest with
      | .error e => .error e
      | .ok as' => .ok (a :: as')

/-- "".join of the collected (already stripped) condition lines. -/
def joinLines : List (List Char) → List Char
  | [] => []
  | l :: rest => l ++ joinLines rest

/-- The formatting comprehension at the end of RuleParser.parsestr: each
collected rule body becomes a dict with the rule name, the raw result of
ExpressionParser.parse on the joined condition lines (note: the translate
method is never applied), and the parsed action calls. -/
def formatRules : List (String × (List (List Char) × List (List Char))) →
    Except EngineError (List Rule)
  | [] => .ok []
  | (n, (cs, as')) :: rest =>
    match parseExpression ⟨joinLines cs⟩ with
    | .error e => .error e
    | .ok p =>
      match parseActionLines as' with
      | .error e => .error e
      | .ok acts =>
        match formatRules rest with
        | .error e => .error e
        | .ok rs => .ok (⟨n, .parsed p, acts⟩ :: rs)

/-- RuleParser.parsestr: scan the text line by line, then format every
collected rule. -/
def parsestr (text : String) : Except EngineError (List Rule) :=
  match scanLines ⟨[], Option.none, false, false⟩ (splitOnNl text.data) with
  | .error e => .error e
  | .ok st => formatRules st.rules

/-- engine.py run on rule text: parse the text with RuleParser.parsestr;
unless exactly one rule came back, rule_parsed stays None and ValueError
is raised; otherwise evaluate that rule. -/
def runStr (text : String) (dv : Variables) (da : Actions) :
    Except EngineError Bool × List Invocation :=
  match parsestr text with
  | .error e => (.error e, [])
  | .ok [r] => run r dv da
  | .ok _ => (.error .valueErrorRun, [])

/-- How many elements of the comparison container (counted by position)
are contained in the field value, via SelectType.contains — the quantity
SelectMultipleType.shares_exactly_one_element_with actually tests. -/
def matchCount (value : List PyVal) : List PyVal → Nat
  | [] => 0
  | o :: rest =>
    (if SelectType.contains value o then 1 else 0) + matchCount value rest

/-- Counts the elements of the remaining comparison container that are in
the field value and not equivalent (under the case-insensitive equality)
to an already seen element. -/
def interSizeAux (value : List PyVal) : List PyVal → List PyVal → Nat
  | [], _ => 0
  | b :: rest, seen =>
    (if SelectType.contains value b &&
        !(seen.any (fun s => caseInsensitiveEqualTo s b)) then 1 else 0) +
      interSizeAux value rest (b :: seen)

/-- Formalizes the specification's words for shares_exactly_one_element_
with: the size of the intersection of the field container and the
comparison container as sets, string elements compared case-insensitively
(each group of mutually equivalent elements counted once). -/
def specIntersectionSize (value other : List PyVal) : Nat :=
  interSizeAux value other []

/-- The round-trip rule text of the specification's testable property,
written across lines as the line-oriented reader requires. -/
def c1Text : String := "rule \"r1\"\nwhen\nage > 18\nthen\napprove()\nend"

/-- A variables provider exposing one numeric variable age returning 20. -/
def c1Vars : Variables :=
  fun n => if n == "age" then some (.numeric, .num ⟨20, 0⟩) else Option.none

/-- An actions provider exposing approve. -/
def c1Acts : Actions := fun n => n == "approve"

/-- The normalized rule the specification's parser-translator-evaluator
data flow intends for the round-trip text: a single leaf condition
age greater_than 18 and one approve action without params. -/
def c1NormRule : Rule :=
  ⟨"r1", .leafD "age" "greater_than" (.num ⟨18, 0⟩), [⟨"approve", []⟩]⟩

/-- Concrete comparison t1 for the precedence counterexample. -/
def c2t1 : ComparisonExpr := ⟨"a", ">", .num ⟨1, 0⟩⟩

/-- Concrete comparison t2 for the precedence counterexample. -/
def c2t2 : ComparisonExpr := ⟨"b", ">", .num ⟨2, 0⟩⟩

/-- Concrete comparison t3 for the precedence counterexample. -/
def c2t3 : ComparisonExpr := ⟨"c", ">", .num ⟨3, 0⟩⟩

/-- Field container for the shares_exactly_one_element_with
counterexample: the one-element list holding the number 1. -/
def c7A : List PyVal := [.num ⟨1, 0⟩]

/-- Comparison container for the counterexample: the number 1 twice. -/
def c7B : List PyVal := [.num ⟨1, 0⟩, .num ⟨1, 0⟩]

/-- A rule whose condition tree contains a leaf referencing a field name
(missing) the provider does not expose, placed after a leaf that already
decides an any-group: the evaluator never reaches the unknown leaf. -/
def c5Rule : Rule :=
  ⟨"r5",
   .anyD [.leafD "age" "greater_than" (.num ⟨18, 0⟩),
          .leafD "missing" "greater_than" (.num ⟨1, 0⟩)],
   [⟨"approve", []⟩]⟩

/-- A leaf that evaluates true under the age = 20 provider. -/
def c3LeafTrue : CondObj := .leafD "age" "greater_than" (.num ⟨18, 0⟩)

/-- A leaf that evaluates false under the age = 20 provider. -/
def c3LeafFalse : CondObj := .leafD "age" "greater_than" (.num ⟨30, 0⟩)

/-- The field value 1 + 1e-6 + 1e-34 of the Decimal-rounding
counterexample, exactly as a provider's Decimal (or lossless float
conversion) would deliver it. -/
def c6a : PyDecimal := ⟨10000010000000000000000000000000001, -34⟩

/-- The comparison value 1 of the Decimal-rounding counterexample. -/
def c6b : PyDecimal := ⟨1, 0⟩

/-!
Theorems. First the correspondence lemmas between exact Decimal
arithmetic and rational values, then lemmas about the evaluator loops,
then one theorem per claim.
-/

namespace PyDecimal

theorem toRat_scale (d : PyDecimal) (m : Int) (h : m ≤ d.exp) :
    d.toRat * (10 : ℚ) ^ (-m) = ((d.man * 10 ^ (d.exp - m).toNat : ℤ) : ℚ) := by
  unfold toRat
  have h10 : (10 : ℚ) ≠ 0 := by norm_num
  push_cast
  rw [mul_assoc, ← zpow_add₀ h10]
  congr 1
  rw [← zpow_natCast (10 : ℚ) (d.exp - m).toNat, Int.toNat_of_nonneg (by omega)]
  congr 1

theorem dle_iff (a b : PyDecimal) : a.dle b = true ↔ a.toRat ≤ b.toRat := by
  unfold dle
  rw [decide_eq_true_iff]
  have key : a.toRat ≤ b.toRat ↔
      a.toRat * (10 : ℚ) ^ (-(min a.exp b.exp)) ≤
        b.toRat * (10 : ℚ) ^ (-(min a.exp b.exp)) :=
    (mul_le_mul_right (zpow_pos (by norm_num) _)).symm
  rw [key, toRat_scale a (min a.exp b.exp) (min_le_left _ _),
    toRat_scale b (min a.exp b.exp) (min_le_right _ _)]
  exact_mod_cast Iff.rfl

theorem dlt_iff (a b : PyDecimal) : a.dlt b = true ↔ a.toRat < b.toRat := by
  unfold dlt
  rw [decide_eq_true_iff]
  have key : a.toRat < b.toRat ↔
      a.toRat * (10 : ℚ) ^ (-(min a.exp b.exp)) <
        b.toRat * (10 : ℚ) ^ (-(min a.exp b.exp)) :=
    (mul_lt_mul_right (zpow_pos (by norm_num) _)).symm
  rw [key, toRat_scale a (min a.exp b.exp) (min_le_left _ _),
    toRat_scale b (min a.exp b.exp) (min_le_right _ _)]
  exact_mod_cast Iff.rfl

theorem toRat_esub (a b : PyDecimal) : (a.esub b).toRat = a.toRat - b.toRat := by
  have h10 : (10 : ℚ) ≠ 0 := by norm_num
  have key : (a.toRat - b.toRat) =
      (a.toRat - b.toRat) * (10 : ℚ) ^ (-(min a.exp b.exp)) *
        (10 : ℚ) ^ (min a.exp b.exp) := by
    rw [mul_assoc, ← zpow_add₀ h10]
    simp
  rw [key, sub_mul, toRat_scale a (min a.exp b.exp) (min_le_left _ _),
    toRat_scale b (min a.exp b.exp) (min_le_right _ _)]
  unfold esub toRat
  push_cast
  ring

theorem fix_of_digits_le (d : PyDecimal) (h : digitCount d.man.natAbs ≤ contextPrec) :
    fix d = d := by
  unfold fix
  split
  · rfl
  · simp [h]

theorem toRat_absMan (m e : Int) :
    toRat ⟨|m|, e⟩ = |toRat ⟨m, e⟩| := by
  unfold toRat
  rw [abs_mul, abs_of_pos (a := (10 : ℚ) ^ e) (zpow_pos (by norm_num) _)]
  push_cast
  rfl

end PyDecimal

theorem checkAllList_ok_false_iff (dv : Variables) (cs : List CondObj)
    (hok : ∀ c ∈ cs, ∃ b, checkCondRec dv c = .ok b) :
    checkAllList dv cs = .ok false ↔ ∃ c ∈ cs, checkCondRec dv c = .ok false := by
  induction cs with
  | nil => simp [checkAllList]
  | cons c rest ih =>
    obtain ⟨b, hb⟩ := hok c (List.mem_cons_self c rest)
    have hrest : ∀ x ∈ rest, ∃ b2, checkCondRec dv x = .ok b2 :=
      fun x hx => hok x (List.mem_cons_of_mem c hx)
    cases b with
    | false => simp [checkAllList, hb]
    | true => simp [checkAllList, hb, ih hrest]

theorem checkAnyList_ok_true_iff (dv : Variables) (cs : List CondObj)
    (hok : ∀ c ∈ cs, ∃ b, checkCondRec dv c = .ok b) :
    checkAnyList dv cs = .ok true ↔ ∃ c ∈ cs, checkCondRec dv c = .ok true := by
  induction cs with
  | nil => simp [checkAnyList]
  | cons c rest ih =>
    obtain ⟨b, hb⟩ := hok c (List.mem_cons_self c rest)
    have hrest : ∀ x ∈ rest, ∃ b2, checkCondRec dv x = .ok b2 :=
      fun x hx => hok x (List.mem_cons_of_mem c hx)
    cases b with
    | true => simp [checkAnyList, hb]
    | false => simp [checkAnyList, hb, ih hrest]

theorem checkAllList_append_false (dv : Variables) (l : List CondObj) (c : CondObj)
    (r : List CondObj) (hl : ∀ x ∈ l, checkCondRec dv x = .ok true)
    (hc : checkCondRec dv c = .ok false) :
    checkAllList dv (l ++ c :: r) = .ok false := by
  induction l with
  | nil => simp [checkAllList, hc]
  | cons x xs ih =>
    have hx := hl x (List.mem_cons_self x xs)
    simp only [List.cons_append, checkAllList, hx]
    exact ih (fun y hy => hl y (List.mem_cons_of_mem x hy))

theorem checkAnyList_append_true (dv : Variables) (l : List CondObj) (c : CondObj)
    (r : List CondObj) (hl : ∀ x ∈ l, checkCondRec dv x = .ok false)
    (hc : checkCondRec dv c = .ok true) :
    checkAnyList dv (l ++ c :: r) = .ok true := by
  induction l with
  | nil => simp [checkAnyList, hc]
  | cons x xs ih =>
    have hx := hl x (List.mem_cons_self x xs)
    simp only [List.cons_append, checkAnyList, hx]
    exact ih (fun y hy => hl y (List.mem_cons_of_mem x hy))

/-- C3: for every all-group with non-empty children whose children all
evaluate without error, evaluation returns false iff at least one child
evaluates false, and dually an any-group returns true iff at least one
child evaluates true; moreover evaluation short-circuits: once the
children before some child evaluate true (resp. false) and that child
evaluates false (resp. true), the group evaluates false (resp. true)
whatever the later children would do. -/
theorem claimC3_groups (dv : Variables) (cs : List CondObj) (hne : cs ≠ []) :
    ((∀ c ∈ cs, ∃ b, checkCondRec dv c = .ok b) →
      ((checkCondRec dv (.allD cs) = .ok false ↔
          ∃ c ∈ cs, checkCondRec dv c = .ok false) ∧
       (checkCondRec dv (.anyD cs) = .ok true ↔
          ∃ c ∈ cs, checkCondRec dv c = .ok true))) ∧
    (∀ l c r, cs = l ++ c :: r → (∀ x ∈ l, checkCondRec dv x = .ok true) →
      checkCondRec dv c = .ok false → checkCondRec dv (.allD cs) = .ok false) ∧
    (∀ l c r, cs = l ++ c :: r → (∀ x ∈ l, checkCondRec dv x = .ok false) →
      checkCondRec dv c = .ok true → checkCondRec dv (.anyD cs) = .ok true) := by
  have hemp : cs.isEmpty = false := by
    cases cs with
    | nil => exact absurd rfl hne
    | cons a as' => rfl
  refine ⟨fun hok => ⟨?_, ?_⟩, fun l c r hsplit hl hc => ?_, fun l c r hsplit hl hc => ?_⟩
  · rw [show checkCondRec dv (.allD cs) = checkAllList dv cs by simp [checkCondRec, hemp]]
    exact checkAllList_ok_false_iff dv cs hok
  · rw [show checkCondRec dv (.anyD cs) = checkAnyList dv cs by simp [checkCondRec, hemp]]
    exact checkAnyList_ok_true_iff dv cs hok
  · rw [show checkCondRec dv (.allD cs) = checkAllList dv cs by simp [checkCondRec, hemp]]
    rw [hsplit]
    exact checkAllList_append_false dv l c r hl hc
  · rw [show checkCondRec dv (.anyD cs) = checkAnyList dv cs by simp [checkCondRec, hemp]]
    rw [hsplit]
    exact checkAnyList_append_true dv l c r hl hc

/-- Witness for C3 at a concrete instance: under the age = 20 provider,
the any-group over a true leaf and a false leaf evaluates true (via the
iff part) and the all-group over them evaluates false (via the
short-circuit part with the true leaf as prefix). -/
theorem claimC3_groups_witness :
    checkCondRec c1Vars (.anyD [c3LeafTrue, c3LeafFalse]) = .ok true ∧
    checkCondRec c1Vars (.allD [c3LeafTrue, c3LeafFalse]) = .ok false := by
  have h := claimC3_groups c1Vars [c3LeafTrue, c3LeafFalse] (by intro h0; cases h0)
  have hok : ∀ c ∈ [c3LeafTrue, c3LeafFalse],
      ∃ b, checkCondRec c1Vars c = .ok b := by
    intro c hc
    rcases List.mem_cons.mp hc with rfl | hc2
    · exact ⟨true, rfl⟩
    · rcases List.mem_cons.mp hc2 with rfl | hc3
      · exact ⟨false, rfl⟩
      · cases hc3
  refine ⟨((h.1 hok).2).mpr ⟨c3LeafTrue, List.mem_cons_self _ _, rfl⟩, ?_⟩
  refine h.2.1 [c3LeafTrue] c3LeafFalse [] rfl ?_ rfl
  intro x hx
  rcases List.mem_singleton.mp hx with rfl
  rfl

/-- C4: a group condition node with an empty children list raises the
invalid-rule-shape assertion (the source's assert len >= 1) instead of
evaluating to a default boolean, for both all and any groups and every
variables provider. -/
theorem claimC4_empty_groups (dv : Variables) :
    checkCondRec dv (.allD []) = .error .invalidRuleShape ∧
    checkCondRec dv (.anyD []) = .error .invalidRuleShape :=
  ⟨rfl, rfl⟩

/-- C1 (the code at the failing input): compiling the round-trip rule text
stores the raw ComparisonExpr parse object in the conditions slot
(RuleParser.parsestr never applies ExpressionParser.translate), so run
raises AttributeError at conditions.keys() and invokes no action — instead
of returning true and invoking approve once as the claim states. The
normalized rule the specification's parser-translator-evaluator data flow
intends does return true and invokes approve exactly once with empty
params. -/
theorem claimC1_roundtrip_bug :
    parsestr c1Text =
      .ok [⟨"r1", .parsed (.cmpE ⟨"age", ">", .num ⟨18, 0⟩⟩), [⟨"approve", []⟩]⟩] ∧
    runStr c1Text c1Vars c1Acts = (.error .attributeErrorNoKeys, []) ∧
    run c1NormRule c1Vars c1Acts = (.ok true, [("approve", [])]) :=
  ⟨rfl, rfl, rfl⟩

/-- C2 counterexample: the infix grammar gives AND a tighter precedence
level than OR, so t1 OR t2 AND t3 parses as t1 OR (t2 AND t3), not as the
claimed left grouping (t1 OR t2) AND t3 — both at the token level and on
the corresponding condition text. -/
theorem claimC2_counterexample :
    parseExprToks [.cmp c2t1, .orT, .cmp c2t2, .andT, .cmp c2t3] =
      some (.group [.cmpE c2t1, .logicE .orOp,
        .group [.cmpE c2t2, .logicE .andOp, .cmpE c2t3]]) ∧
    parseExpression "a > 1 OR b > 2 AND c > 3" =
      .ok (.group [.cmpE c2t1, .logicE .orOp,
        .group [.cmpE c2t2, .logicE .andOp, .cmpE c2t3]]) ∧
    PNode.group [.cmpE c2t1, .logicE .orOp,
        .group [.cmpE c2t2, .logicE .andOp, .cmpE c2t3]] ≠
      PNode.group [.group [.cmpE c2t1, .logicE .orOp, .cmpE c2t2],
        .logicE .andOp, .cmpE c2t3] := by
  refine ⟨rfl, rfl, ?_⟩
  intro h
  injection h with h1
  injection h1 with h2
  exact PNode.noConfusion h2

/-- C2 amended: AND and OR sit on two precedence levels, AND binding
tighter than OR, each level left-associative and flattened into one group:
t1 AND t2 OR t3 groups as (t1 AND t2) OR t3, t1 OR t2 AND t3 groups as
t1 OR (t2 AND t3), and same-operator chains stay in one flat group. -/
theorem claimC2_amended (t1 t2 t3 : ComparisonExpr) :
    parseExprToks [.cmp t1, .andT, .cmp t2, .orT, .cmp t3] =
      some (.group [.group [.cmpE t1, .logicE .andOp, .cmpE t2],
        .logicE .orOp, .cmpE t3]) ∧
    parseExprToks [.cmp t1, .orT, .cmp t2, .andT, .cmp t3] =
      some (.group [.cmpE t1, .logicE .orOp,
        .group [.cmpE t2, .logicE .andOp, .cmpE t3]]) ∧
    parseExprToks [.cmp t1, .andT, .cmp t2, .andT, .cmp t3] =
      some (.group [.cmpE t1, .logicE .andOp, .cmpE t2,
        .logicE .andOp, .cmpE t3]) ∧
    parseExprToks [.cmp t1, .orT, .cmp t2, .orT, .cmp t3] =
      some (.group [.cmpE t1, .logicE .orOp, .cmpE t2,
        .logicE .orOp, .cmpE t3]) :=
  ⟨rfl, rfl, rfl, rfl⟩

/-- C5 counterexample: a rule whose condition tree contains a leaf
referencing the unexposed field missing, yet run returns true and invokes
the action, because the any-group short-circuits on its first (true) child
and the unknown leaf is never evaluated. -/
theorem claimC5_counterexample :
    c1Vars "missing" = Option.none ∧
    run c5Rule c1Vars c1Acts = (.ok true, [("approve", [])]) :=
  ⟨rfl, rfl⟩

/-- C5 amended: when condition evaluation does reach an unknown field —
a leaf whose name the provider does not expose evaluates to the
unknown-variable error, and whenever the rule's condition evaluation
produces that error, run propagates it and invokes none of the rule's
actions. -/
theorem claimC5_amended (r : Rule) (dv : Variables) (da : Actions)
    (name opName : String) (v : PyVal) (hname : dv name = Option.none)
    (hcond : checkCondRec dv r.conditions = .error (.unknownVariable name)) :
    checkCondRec dv (.leafD name opName v) = .error (.unknownVariable name) ∧
    run r dv da = (.error (.unknownVariable name), []) := by
  constructor
  · simp only [checkCondRec, checkCondition, getVariableValue, hname]
    rfl
  · simp [run, hcond]

/-- Witness for C5 amended: a rule whose whole condition tree is a leaf on
the unexposed field missing, under the age-only provider. -/
theorem claimC5_amended_witness :
    checkCondRec c1Vars (.leafD "missing" "greater_than" (.num ⟨1, 0⟩)) =
      .error (.unknownVariable "missing") ∧
    run ⟨"r5b", .leafD "missing" "greater_than" (.num ⟨1, 0⟩), [⟨"approve", []⟩]⟩
      c1Vars c1Acts = (.error (.unknownVariable "missing"), []) :=
  claimC5_amended
    ⟨"r5b", .leafD "missing" "greater_than" (.num ⟨1, 0⟩), [⟨"approve", []⟩]⟩
    c1Vars c1Acts "missing" "greater_than" (.num ⟨1, 0⟩) rfl rfl

theorem epsilon_toRat : NumericType.EPSILON.toRat = 1/1000000 := by
  unfold NumericType.EPSILON PyDecimal.toRat
  norm_num

/-- C6 counterexample: at field value 1 + 1e-6 + 1e-34 and comparison
value 1, the exact difference has 29 significant digits, so Decimal
subtraction rounds it to 28 digits (half-even) — producing exactly 1e-6 —
and the program's equal_to returns true although the exact difference of
the two values exceeds 1e-6: the claimed exact-epsilon characterization
fails on the code. -/
theorem claimC6_counterexample :
    NumericType.equal_to c6a c6b = true ∧
    ¬(|c6a.toRat - c6b.toRat| ≤ 1/1000000) ∧
    ¬(NumericType.equal_to c6a c6b = true ↔
        |c6a.toRat - c6b.toRat| ≤ 1/1000000) := by
  have h1 : NumericType.equal_to c6a c6b = true := by decide
  have hdle : PyDecimal.dle ⟨10000000000000000000000000001, -34⟩
      NumericType.EPSILON = false := by decide
  have h2 : ¬(|c6a.toRat - c6b.toRat| ≤ 1/1000000) := by
    intro hle
    have habs : |c6a.toRat - c6b.toRat| =
        PyDecimal.toRat ⟨10000000000000000000000000001, -34⟩ := by
      rw [← PyDecimal.toRat_esub]
      rw [show PyDecimal.esub c6a c6b =
        (⟨10000000000000000000000000001, -34⟩ : PyDecimal) from by decide]
      have hpos : (0 : ℚ) <
          PyDecimal.toRat ⟨10000000000000000000000000001, -34⟩ := by
        unfold PyDecimal.toRat
        positivity
      rw [abs_of_pos hpos]
    rw [habs, ← epsilon_toRat] at hle
    have hbool := (PyDecimal.dle_iff _ _).mpr hle
    rw [hdle] at hbool
    exact Bool.false_ne_true hbool
  exact ⟨h1, h2, fun h => h2 (h.mp h1)⟩

/-- C6 amended: the epsilon characterization is exact whenever the exact
difference of the two values fits within the decimal context precision of
28 significant digits (as all the specification's examples do): then
equal_to holds iff the values differ by at most 1e-6, greater_than iff
the difference exceeds 1e-6, less_than iff the reversed difference
exceeds 1e-6; greater_than_or_equal_to is always the disjunction of
greater_than and equal_to; and equal_to(5.0000001, 5) is true while
equal_to(5.1, 5) is false. Beyond 28 digits the comparisons apply to the
context-rounded difference instead (see the counterexample). -/
theorem claimC6_amended (a b : PyDecimal)
    (h1 : PyDecimal.digitCount (PyDecimal.esub a b).man.natAbs ≤
      PyDecimal.contextPrec)
    (h2 : PyDecimal.digitCount (PyDecimal.esub b a).man.natAbs ≤
      PyDecimal.contextPrec) :
    (NumericType.equal_to a b = true ↔ |a.toRat - b.toRat| ≤ 1/1000000) ∧
    (NumericType.greater_than a b = true ↔ a.toRat - b.toRat > 1/1000000) ∧
    (NumericType.less_than a b = true ↔ b.toRat - a.toRat > 1/1000000) ∧
    (NumericType.greater_than_or_equal_to a b =
      (NumericType.greater_than a b || NumericType.equal_to a b)) ∧
    NumericType.equal_to ⟨50000001, -7⟩ ⟨5, 0⟩ = true ∧
    NumericType.equal_to ⟨51, -1⟩ ⟨5, 0⟩ = false := by
  have hsub : PyDecimal.sub a b = PyDecimal.esub a b :=
    PyDecimal.fix_of_digits_le _ h1
  have hsub2 : PyDecimal.sub b a = PyDecimal.esub b a :=
    PyDecimal.fix_of_digits_le _ h2
  refine ⟨?_, ?_, ?_, rfl, by decide, by decide⟩
  · unfold NumericType.equal_to
    rw [hsub]
    have habs : (PyDecimal.esub a b).dabs =
        ⟨|(PyDecimal.esub a b).man|, (PyDecimal.esub a b).exp⟩ := by
      unfold PyDecimal.dabs
      apply PyDecimal.fix_of_digits_le
      rw [Int.natAbs_abs]
      exact h1
    rw [habs, PyDecimal.dle_iff, PyDecimal.toRat_absMan]
    rw [show (⟨(PyDecimal.esub a b).man, (PyDecimal.esub a b).exp⟩ : PyDecimal) =
      PyDecimal.esub a b from rfl]
    rw [PyDecimal.toRat_esub, epsilon_toRat]
  · unfold NumericType.greater_than
    rw [hsub, PyDecimal.dlt_iff, PyDecimal.toRat_esub, epsilon_toRat]
  · unfold NumericType.less_than
    rw [hsub2, PyDecimal.dlt_iff, PyDecimal.toRat_esub, epsilon_toRat]

/-- Witness for C6 amended at the specification's own example: field
value 5.0000001 against comparison value 5, whose exact difference 1e-7
fits in one significant digit. -/
theorem claimC6_amended_witness :
    (NumericType.equal_to ⟨50000001, -7⟩ ⟨5, 0⟩ = true ↔
      |PyDecimal.toRat ⟨50000001, -7⟩ - PyDecimal.toRat ⟨5, 0⟩| ≤ 1/1000000) ∧
    (NumericType.greater_than ⟨50000001, -7⟩ ⟨5, 0⟩ = true ↔
      PyDecimal.toRat ⟨50000001, -7⟩ - PyDecimal.toRat ⟨5, 0⟩ > 1/1000000) ∧
    (NumericType.less_than ⟨50000001, -7⟩ ⟨5, 0⟩ = true ↔
      PyDecimal.toRat ⟨5, 0⟩ - PyDecimal.toRat ⟨50000001, -7⟩ > 1/1000000) ∧
    (NumericType.greater_than_or_equal_to ⟨50000001, -7⟩ ⟨5, 0⟩ =
      (NumericType.greater_than ⟨50000001, -7⟩ ⟨5, 0⟩ ||
        NumericType.equal_to ⟨50000001, -7⟩ ⟨5, 0⟩)) ∧
    NumericType.equal_to ⟨50000001, -7⟩ ⟨5, 0⟩ = true ∧
    NumericType.equal_to ⟨51, -1⟩ ⟨5, 0⟩ = false :=
  claimC6_amended ⟨50000001, -7⟩ ⟨5, 0⟩ (by decide) (by decide)

theorem sharesExactlyOneAux_true_iff (value : List PyVal) (found : Bool)
    (other : List PyVal) :
    SelectMultipleType.sharesExactlyOneAux value found other = true ↔
      matchCount value other = (if found then 0 else 1) := by
  induction other generalizing found with
  | nil => cases found <;> simp [SelectMultipleType.sharesExactlyOneAux, matchCount]
  | cons o rest ih =>
    by_cases h : SelectType.contains value o
    · cases found
      · rw [show SelectMultipleType.sharesExactlyOneAux value false (o :: rest) =
              SelectMultipleType.sharesExactlyOneAux value true rest by
                simp [SelectMultipleType.sharesExactlyOneAux, h]]
        rw [ih true]
        have hm : matchCount value (o :: rest) = 1 + matchCount value rest := by
          simp [matchCount, h]
        rw [hm]
        show matchCount value rest = 0 ↔ 1 + matchCount value rest = 1
        omega
      · rw [show SelectMultipleType.sharesExactlyOneAux value true (o :: rest) = false by
              simp [SelectMultipleType.sharesExactlyOneAux, h]]
        simp only [matchCount, h, if_pos, if_true, Bool.false_eq_true, false_iff]
        omega
    · cases found <;>
        simp [SelectMultipleType.sharesExactlyOneAux, matchCount, h, ih]

/-- C7 counterexample: with field container [1] and comparison container
[1, 1] the operator scans two matching elements and returns false, yet the
intersection of the two containers as sets has size exactly 1 — the claim
as stated fails on containers with duplicated matches. -/
theorem claimC7_counterexample :
    SelectMultipleType.shares_exactly_one_element_with c7A c7B = false ∧
    specIntersectionSize c7A c7B = 1 ∧
    ¬(SelectMultipleType.shares_exactly_one_element_with c7A c7B = true ↔
        specIntersectionSize c7A c7B = 1) := by
  refine ⟨rfl, rfl, fun h => ?_⟩
  exact absurd (h.mpr rfl) (by decide)

/-- C7 amended: shares_exactly_one_element_with is true iff exactly one
element of the comparison container, counted by position (multiplicity),
is contained in the field value under the case-insensitive equality; the
specification's examples hold: field [1,2,3] against comparison [2,3]
gives false and against [2,9] gives true. -/
theorem claimC7_amended (value other : List PyVal) :
    (SelectMultipleType.shares_exactly_one_element_with value other = true ↔
      matchCount value other = 1) ∧
    SelectMultipleType.shares_exactly_one_element_with
      [.num ⟨1, 0⟩, .num ⟨2, 0⟩, .num ⟨3, 0⟩]
      [.num ⟨2, 0⟩, .num ⟨3, 0⟩] = false ∧
    SelectMultipleType.shares_exactly_one_element_with
      [.num ⟨1, 0⟩, .num ⟨2, 0⟩, .num ⟨3, 0⟩]
      [.num ⟨2, 0⟩, .num ⟨9, 0⟩] = true := by
  refine ⟨?_, rfl, rfl⟩
  unfold SelectMultipleType.shares_exactly_one_element_with
  simpa using sharesExactlyOneAux_true_iff value false other

/-- C8 counterexample: casting the truthy non-string 5 to the Text kind
raises the invalid-value assertion — construction does not succeed for
every input. -/
theorem claimC8_counterexample :
    StringType.cast (.num ⟨5, 0⟩) = .error (.invalidValue "string") := rfl

/-- C8 amended: casting to the Text kind succeeds exactly on strings and
on falsy inputs — strings are kept, any falsy input (None, zero, empty
containers, False, the empty string) becomes the empty string, and every
truthy non-string input is rejected with the invalid-value error. -/
theorem claimC8_amended (v : PyVal) :
    (∀ s, StringType.cast (.str s) = .ok s) ∧
    (pyTruthy v = false → StringType.cast v = .ok "") ∧
    (pyTruthy v = true → (∀ s, v ≠ .str s) →
      StringType.cast v = .error (.invalidValue "string")) := by
  refine ⟨fun s => ?_, fun h => ?_, fun h hns => ?_⟩
  · by_cases hs : s = ""
    · subst hs; rfl
    · simp [StringType.cast, pyTruthy, hs]
  · simp [StringType.cast, h]
  · cases v with
    | none => simp [pyTruthy] at h
    | str s2 => exact absurd rfl (hns s2)
    | num d => simp [StringType.cast, h]
    | bool b => simp [StringType.cast, h]
    | list l => simp [StringType.cast, h]

/-- Witness for C8 amended at concrete inputs: a kept string, the falsy
number 0 becoming the empty string, and the truthy number 2 rejected. -/
theorem claimC8_amended_witness :
    StringType.cast (.str "abc") = .ok "abc" ∧
    StringType.cast (.num ⟨0, 0⟩) = .ok "" ∧
    StringType.cast (.num ⟨2, 0⟩) = .error (.invalidValue "string") :=
  ⟨(claimC8_amended (.num ⟨2, 0⟩)).1 "abc",
   (claimC8_amended (.num ⟨0, 0⟩)).2.1 rfl,
   (claimC8_amended (.num ⟨2, 0⟩)).2.2 rfl (fun _ h => PyVal.noConfusion h)⟩

/-- C9: the numeric kind's operator metadata lists both
greater_than_or_equal_to and less_than_or_equal_to under the same symbolic
token >=. -/
theorem claimC9_duplicate_token :
    (NumericType.get_all_operators.filter
      (fun m => m.name == "less_than_or_equal_to")).map (fun m => m.operator) =
        [">="] ∧
    (NumericType.get_all_operators.filter
      (fun m => m.name == "greater_than_or_equal_to")).map (fun m => m.operator) =
        [">="] :=
  ⟨rfl, rfl⟩

/-- C10: is_contained_by applied to field value x and comparison value y
is by construction contains_all applied to field value y and comparison
value x — the two operators are converses, both as plain operator bodies
and through the engine's dispatch with its argument casting. -/
theorem claimC10_converse (x y : List PyVal) :
    SelectMultipleType.is_contained_by x y = SelectMultipleType.contains_all y x ∧
    doOperatorComparison (.selectMultipleV x) "is_contained_by" (.list y) =
      doOperatorComparison (.selectMultipleV y) "contains_all" (.list x) :=
  ⟨rfl, rfl⟩
